import Mathlib

/-!
Shallow embedding of the resonance repository's credential core
(`spotify-auth.ts`, `spotify-api.ts`) and its aggregation transforms,
with theorems checking the specification's claims about them.

Conventions of the embedding:
* `localStorage` becomes the explicit record `Store`; absent keys are `none`.
* Timestamps (`Date.now()`, stored expiry) are naturals (milliseconds).
* A network call's outcome is passed in as a `FetchOutcome` value: the code
  under test never inspects more of the response than status-ok/JSON body.
* JavaScript truthiness on `data.expires_in` is the test `≠ 0` on a natural
  (both `undefined` and `0` are falsy and behave identically in the source);
  truthiness on `data.refresh_token` is nonemptiness of the string.
-/

namespace Resonance

/-- The localStorage keys the auth module reads and writes:
`spotify_access_token`, `spotify_token_expires`, `spotify_refresh_token`,
`code_verifier`. Absence of a key is `none`. -/
structure Store where
  accessToken : Option String
  tokenExpires : Option Nat
  refreshToken : Option String
  codeVerifier : Option String
deriving Repr, DecidableEq

/-- The store with no keys set: the logged-out state. -/
def Store.empty : Store := ⟨none, none, none, none⟩

/-- Body of a successful token-endpoint response: `access_token`,
`expires_in` (seconds, `0` models absent/falsy), optional `refresh_token`. -/
structure TokenResponse where
  accessToken : String
  expiresIn : Nat
  refreshToken : Option String
deriving Repr, DecidableEq

/-- Outcome of one `fetch` to the token endpoint: a parsed ok response, a
non-ok HTTP status, or a thrown network/parse error. -/
inductive FetchOutcome where
  | ok (resp : TokenResponse)
  | httpError (status : Nat)
  | exn
deriving Repr, DecidableEq

/-- Embeds `clearToken`: removes all four stored keys. -/
def clearToken (_s : Store) : Store := ⟨none, none, none, none⟩

/-- Embeds `storeToken`: writes only `spotify_access_token`. -/
def storeToken (token : String) (s : Store) : Store :=
  { s with accessToken := some token }

/-- Writes the credential fields of an ok token response into the store, as
both `refreshAccessToken` and `exchangeCodeForToken` do after a successful
exchange: always the access token; the expiry only when `expires_in` is
truthy; the refresh token only when one is present and truthy. -/
def writeTokenResponse (resp : TokenResponse) (now : Nat) (s : Store) : Store :=
  let s1 := { s with accessToken := some resp.accessToken }
  let s2 := if resp.expiresIn ≠ 0 then
      { s1 with tokenExpires := some (now + resp.expiresIn * 1000) }
    else s1
  match resp.refreshToken with
  | some rt => if rt ≠ "" then { s2 with refreshToken := some rt } else s2
  | none => s2

/-- Embeds the part of `refreshAccessToken` after `await fetch` returns: on a
non-ok status or a thrown error it calls `clearToken` and yields `null`; on an
ok response it stores the new credential fields and yields the new access
token. This continuation runs against whatever the store holds when the
response arrives. -/
def refreshContinuation (fetch : FetchOutcome) (now : Nat) (s : Store) :
    Option String × Store :=
  match fetch with
  | .httpError _ => (none, clearToken s)
  | .exn => (none, clearToken s)
  | .ok resp => (some resp.accessToken, writeTokenResponse resp now s)

/-- Embeds `refreshAccessToken`: reads `spotify_refresh_token`; if absent,
returns `null` without touching the store; otherwise issues the refresh
request and runs the continuation on the response. -/
def refreshAccessToken (fetch : FetchOutcome) (now : Nat) (s : Store) :
    Option String × Store :=
  match s.refreshToken with
  | none => (none, s)
  | some _ => refreshContinuation fetch now s

/-- Embeds the async `getStoredToken`: `null` when no token is stored; when a
stored expiry exists and `now ≥ expiry`, delegates to `refreshAccessToken`
and returns its result; otherwise returns the stored token. -/
def getStoredToken (fetch : FetchOutcome) (now : Nat) (s : Store) :
    Option String × Store :=
  match s.accessToken with
  | none => (none, s)
  | some token =>
    match s.tokenExpires with
    | some exp => if now ≥ exp then refreshAccessToken fetch now s else (some token, s)
    | none => (some token, s)

/-- Embeds `getStoredTokenSync`: when both a token and an expiry are stored
and `now ≥ expiry`, returns `null` (it cannot refresh synchronously);
otherwise returns whatever token is stored. It never writes the store. -/
def getStoredTokenSync (now : Nat) (s : Store) : Option String :=
  match s.accessToken, s.tokenExpires with
  | some _, some exp => if now ≥ exp then none else s.accessToken
  | _, _ => s.accessToken

/-- Failure modes of `exchangeCodeForToken`, keyed by the error message the
source throws: Invalid authorization code, Code verifier not found, Failed to
exchange code for token. -/
inductive ExchangeError where
  | invalidCode
  | noVerifier
  | exchangeFailed
deriving Repr, DecidableEq

/-- Embeds `exchangeCodeForToken`: rejects a code of length below 10 with
`invalidCode`; fails with `noVerifier` when no `code_verifier` is stored;
otherwise exchanges, and on an ok response removes the verifier, stores
expiry and refresh token when present, and returns the access token. (The
access token itself is returned to the caller, not stored here; the
`Callback` component calls `storeToken` on it.) -/
def exchangeCodeForToken (fetch : FetchOutcome) (now : Nat) (code : String)
    (s : Store) : Except ExchangeError String × Store :=
  if code.length < 10 then (.error .invalidCode, s)
  else
    match s.codeVerifier with
    | none => (.error .noVerifier, s)
    | some _ =>
      match fetch with
      | .httpError _ => (.error .exchangeFailed, s)
      | .exn => (.error .exchangeFailed, s)
      | .ok resp =>
        let s1 := { s with codeVerifier := none }
        let s2 := if resp.expiresIn ≠ 0 then
            { s1 with tokenExpires := some (now + resp.expiresIn * 1000) }
          else s1
        let s3 := match resp.refreshToken with
          | some rt => if rt ≠ "" then { s2 with refreshToken := some rt } else s2
          | none => s2
        (.ok resp.accessToken, s3)

/-- Character class of `validateSpotifyAuthCode` in `validation.ts`: the
regex class A-Z, a-z, 0-9, hyphen, dot, underscore, tilde. -/
def isSpotifyCodeChar (c : Char) : Bool :=
  ('A' ≤ c && c ≤ 'Z') || ('a' ≤ c && c ≤ 'z') || ('0' ≤ c && c ≤ '9') ||
  c == '-' || c == '.' || c == '_' || c == '~'

/-- Embeds `validateSpotifyAuthCode`: the regex `[A-Za-z0-9\-._~]+` must match
the whole string and the length must be strictly between 50 and 1000. -/
def validateSpotifyAuthCode (code : String) : Bool :=
  (!code.isEmpty && code.toList.all isSpotifyCodeChar) &&
  decide (50 < code.length) && decide (code.length < 1000)

/-- Kinds of upstream failure in the gateway's classification. -/
inductive UpstreamKind where
  | unauthorized
  | forbidden
  | rateLimited
  | transient
deriving Repr, DecidableEq

/-- A classified upstream failure: its kind and the retry-after hint it
carries (when any). -/
structure UpstreamError where
  kind : UpstreamKind
  retryAfter : Option Nat
deriving Repr, DecidableEq

/-- Embeds fetch's `response.ok`: status in the inclusive range 200–299. -/
def responseOk (status : Nat) : Bool :=
  decide (200 ≤ status) && decide (status ≤ 299)

/-- Embeds the error branch of `makeSpotifyRequest`: the exact message thrown
for each status class, `none` when the response is ok. -/
def spotifyRequestErrorMessage (status : Nat) : Option String :=
  if responseOk status then none
  else if status = 401 then some "Token expired or invalid"
  else if status = 403 then some "Access forbidden - insufficient permissions"
  else if status = 429 then some "Rate limit exceeded - please try again later"
  else some "Failed to fetch data from Spotify"

/-- Classification of a gateway response into the spec's error taxonomy, read
off the thrown message. The retry-after header value is taken as an input to
record that it was available to the code, but `makeSpotifyRequest` never
reads response headers, so no classified error carries a hint. -/
def classifyResponse (status : Nat) (_retryAfter : Option Nat) :
    Option UpstreamError :=
  match spotifyRequestErrorMessage status with
  | none => none
  | some m =>
    if m = "Token expired or invalid" then some ⟨.unauthorized, none⟩
    else if m = "Access forbidden - insufficient permissions" then
      some ⟨.forbidden, none⟩
    else if m = "Rate limit exceeded - please try again later" then
      some ⟨.rateLimited, none⟩
    else some ⟨.transient, none⟩

/-- An artist as the genre aggregation consumes it: its display name and
genre list. -/
structure Artist where
  name : String
  genres : List String
deriving Repr, DecidableEq

/-- One row of the genre aggregation's output. Percentages are exact
rationals in the embedding. -/
structure GenreData where
  name : String
  count : Nat
  percentage : ℚ
  topArtists : List String
deriving Repr, DecidableEq

/-- Embeds one `genreCount` map update in `getTopGenres`: a JavaScript `Map`
iterates in insertion order, so it is an insertion-ordered association list;
an existing genre entry has its count bumped and the artist name appended,
a new genre is appended at the end. -/
def bumpGenre (genre artistName : String) :
    List (String × Nat × List String) → List (String × Nat × List String)
  | [] => [(genre, 1, [artistName])]
  | (g, c, as) :: rest =>
    if g = genre then (g, c + 1, as ++ [artistName]) :: rest
    else (g, c, as) :: bumpGenre genre artistName rest

/-- Embeds the double `forEach` of `getTopGenres` building `genreCount`. -/
def genreCounts (artists : List Artist) : List (String × Nat × List String) :=
  artists.foldl
    (fun m artist => artist.genres.foldl
      (fun m2 g => bumpGenre g artist.name m2) m) []

/-- Embeds `totalGenreOccurrences`: the sum of all counts in the map. -/
def totalOccurrencesOf (m : List (String × Nat × List String)) : Nat :=
  (m.map (fun e => e.2.1)).sum

/-- Embeds the `.map` step of `getTopGenres`: each entry becomes a
`GenreData` with percentage count divided by total occurrences times 100,
keeping the first five contributing artist names. -/
def genreDataOf (artists : List Artist) : List GenreData :=
  let m := genreCounts artists
  let total := totalOccurrencesOf m
  m.map (fun e => ⟨e.1, e.2.1, (e.2.1 : ℚ) / (total : ℚ) * 100, e.2.2.take 5⟩)

/-- The order used by the `.sort((a, b) => b.count - a.count)` comparator:
`a` may precede `b` exactly when the comparator is nonpositive. -/
def genreOrder (a b : GenreData) : Prop := b.count ≤ a.count

instance : DecidableRel genreOrder := fun a b => Nat.decLe b.count a.count

instance : IsTotal GenreData genreOrder := ⟨fun a b => Nat.le_total b.count a.count⟩

instance : IsTrans GenreData genreOrder :=
  ⟨fun _ _ _ hab hbc => Nat.le_trans hbc hab⟩

/-- Embeds `getTopGenres` (minus the network fetch): ECMAScript `sort` is
stable, as is insertion sort with a total preorder, and a stable sort for a
given total preorder is unique, so `insertionSort` by the comparator's order
embeds the `.sort` call. -/
def getTopGenres (artists : List Artist) : List GenreData :=
  List.insertionSort genreOrder (genreDataOf artists)

/-- The album identity fields the grouping uses. -/
structure AlbumRef where
  id : String
  name : String
deriving Repr, DecidableEq

/-- A track as the album grouping consumes it. -/
structure Track where
  name : String
  popularity : Nat
  album : AlbumRef
deriving Repr, DecidableEq

/-- One entry of the `albumMap` accumulator in `getTopAlbumsFromTracks`. -/
structure AlbumGroup where
  albumId : String
  trackCount : Nat
  topTracks : List String
  totalPopularity : Nat
deriving Repr, DecidableEq

/-- Embeds one `albumMap` update: an existing group (keyed by album id) has
its count bumped, the track name appended, and the popularity accumulated; a
new album id appends a fresh group (JavaScript `Map` insertion order). -/
def bumpAlbum (t : Track) : List AlbumGroup → List AlbumGroup
  | [] => [⟨t.album.id, 1, [t.name], t.popularity⟩]
  | g :: rest =>
    if g.albumId = t.album.id then
      ⟨g.albumId, g.trackCount + 1, g.topTracks ++ [t.name],
        g.totalPopularity + t.popularity⟩ :: rest
    else g :: bumpAlbum t rest

/-- Embeds the `tracks.forEach` grouping loop. -/
def albumGroups (tracks : List Track) : List AlbumGroup :=
  tracks.foldl (fun m t => bumpAlbum t m) []

/-- One row of the album aggregation's output, with the running average as
an exact rational. -/
structure RankedAlbum where
  albumId : String
  trackCount : Nat
  topTracks : List String
  averagePopularity : ℚ
deriving Repr, DecidableEq

/-- Embeds the `.map` step of `getTopAlbumsFromTracks`: keep the first three
track names and compute the average popularity of the group. -/
def rankedAlbums (tracks : List Track) : List RankedAlbum :=
  (albumGroups tracks).map
    (fun g => ⟨g.albumId, g.trackCount, g.topTracks.take 3,
      (g.totalPopularity : ℚ) / (g.trackCount : ℚ)⟩)

/-- The order of the album comparator: track count descending first, then
average popularity descending on count ties; `a` may precede `b` exactly
when the comparator is nonpositive. -/
def albumOrder (a b : RankedAlbum) : Prop :=
  b.trackCount < a.trackCount ∨
    (a.trackCount = b.trackCount ∧ b.averagePopularity ≤ a.averagePopularity)

instance : DecidableRel albumOrder := fun _ _ => instDecidableOr

instance : IsTotal RankedAlbum albumOrder := by
  refine ⟨fun a b => ?_⟩
  rcases Nat.lt_trichotomy a.trackCount b.trackCount with h | h | h
  · exact Or.inr (Or.inl h)
  · rcases le_total a.averagePopularity b.averagePopularity with hp | hp
    · exact Or.inr (Or.inr ⟨h.symm, hp⟩)
    · exact Or.inl (Or.inr ⟨h, hp⟩)
  · exact Or.inl (Or.inl h)

instance : IsTrans RankedAlbum albumOrder := by
  refine ⟨fun a b c hab hbc => ?_⟩
  rcases hab with h1 | ⟨e1, p1⟩ <;> rcases hbc with h2 | ⟨e2, p2⟩
  · exact Or.inl (h2.trans h1)
  · exact Or.inl (e2 ▸ h1)
  · exact Or.inl (e1 ▸ h2)
  · exact Or.inr ⟨e1.trans e2, p2.trans p1⟩

/-- Embeds `getTopAlbumsFromTracks` (minus the network fetch): group, rank,
sort by the stable comparator order, then `.slice(0, limit)`. -/
def getTopAlbumsFromTracks (tracks : List Track) (limit : Nat) :
    List RankedAlbum :=
  (List.insertionSort albumOrder (rankedAlbums tracks)).take limit

/-- The 62-character alphabet of `generateRandomString`. -/
def possibleChars : List Char :=
  "ABCDEFGHIJKLMNOPQRSTUVWXYZabcdefghijklmnopqrstuvwxyz0123456789".toList

/-- Embeds `generateRandomString`: each random byte indexes the alphabet
modulo its length; the byte list stands for the `Uint8Array` filled by
`crypto.getRandomValues`. -/
def generateRandomString (values : List Nat) : String :=
  ⟨values.map (fun x => possibleChars.getD (x % possibleChars.length) 'A')⟩

/-- The standard base64 digit alphabet. -/
def base64Chars : List Char :=
  "ABCDEFGHIJKLMNOPQRSTUVWXYZabcdefghijklmnopqrstuvwxyz0123456789+/".toList

/-- The base64 digit for a 6-bit value. -/
def b64char (n : Nat) : Char := base64Chars.getD n 'A'

/-- Embeds `btoa` on a byte list: RFC 4648 base64 with `=` padding, which is
the specified behavior of the platform primitive the source calls. -/
def base64Of : List Nat → List Char
  | [] => []
  | [b1] => [b64char (b1 / 4), b64char (b1 % 4 * 16), '=', '=']
  | [b1, b2] =>
    [b64char (b1 / 4), b64char (b1 % 4 * 16 + b2 / 16), b64char (b2 % 16 * 4), '=']
  | b1 :: b2 :: b3 :: rest =>
    b64char (b1 / 4) :: b64char (b1 % 4 * 16 + b2 / 16) ::
      b64char (b2 % 16 * 4 + b3 / 64) :: b64char (b3 % 64) :: base64Of rest

/-- Embeds `base64encode`: `btoa` output with `=` removed, `+` replaced by
`-`, and `/` replaced by `_`. -/
def base64encode (bytes : List Nat) : String :=
  ⟨((base64Of bytes).filter (fun c => !(c == '='))).map
    (fun c => if c = '+' then '-' else if c = '/' then '_' else c)⟩

/-- Embeds the challenge derivation of `initiateAuth`: a 64-byte random draw
becomes the verifier and the challenge is `base64encode` of its digest. The
digest function (`crypto.subtle.digest` over the UTF-8 bytes) is a platform
primitive, taken as a parameter. -/
def initiateAuthChallenge (hash : String → List Nat) (values : List Nat) :
    String × String :=
  let verifier := generateRandomString values
  (verifier, base64encode (hash verifier))

/-- The RFC 3986 unreserved alphabet named by the spec: letters, digits,
hyphen, dot, underscore, tilde. -/
def isUnreservedChar (c : Char) : Bool :=
  ('A' ≤ c && c ≤ 'Z') || ('a' ≤ c && c ≤ 'z') || ('0' ≤ c && c ≤ '9') ||
  c == '-' || c == '.' || c == '_' || c == '~'

/-- The URL-safe base64 alphabet (no padding): letters, digits, hyphen,
underscore. -/
def isBase64UrlChar (c : Char) : Bool :=
  ('A' ≤ c && c ≤ 'Z') || ('a' ≤ c && c ≤ 'z') || ('0' ≤ c && c ≤ '9') ||
  c == '-' || c == '_'

/-- The count stored for a genre key in the insertion-ordered map, zero when
the key is absent. -/
def lookupCount (g : String) : List (String × Nat × List String) → Nat
  | [] => 0
  | (g2, c, _) :: rest => if g2 = g then c else lookupCount g rest

/-- Number of (artist, genre) pairs with this genre across the input: each
artist contributes one occurrence per listing of the genre. -/
def genreOccurrences (g : String) (artists : List Artist) : Nat :=
  (artists.map (fun a => a.genres.count g)).sum

/-- Total number of genre occurrences across the input: the sum of the
lengths of all genre lists. -/
def totalGenreSlots (artists : List Artist) : Nat :=
  (artists.map (fun a => a.genres.length)).sum

/-- The keys of the insertion-ordered genre map. -/
def mapKeys (m : List (String × Nat × List String)) : List String :=
  m.map (fun e => e.1)

/-- C1: when a stored token exists and its stored expiry is at or before the
current time, the async read delegates entirely to `refreshAccessToken` —
returning that refresh's result, never the stored (known-expired) token
directly — and the sync read returns `none`. -/
theorem getStoredToken_never_returns_expired (fetch : FetchOutcome) (now : Nat)
    (s : Store) (t : String) (e : Nat)
    (htok : s.accessToken = some t) (hexp : s.tokenExpires = some e)
    (hpast : e ≤ now) :
    getStoredToken fetch now s = refreshAccessToken fetch now s ∧
    getStoredTokenSync now s = none := by
  obtain ⟨a, x, r, v⟩ := s
  cases htok
  cases hexp
  constructor
  · simp [getStoredToken, hpast]
  · simp [getStoredTokenSync, hpast]

/-- Witness for C1 at a concrete expired store. -/
theorem getStoredToken_never_returns_expired_witness :
    getStoredToken .exn 5 ⟨some "tok", some 5, some "r", none⟩ =
      refreshAccessToken .exn 5 ⟨some "tok", some 5, some "r", none⟩ ∧
    getStoredTokenSync 5 ⟨some "tok", some 5, some "r", none⟩ = none :=
  getStoredToken_never_returns_expired .exn 5 _ "tok" 5 rfl rfl (by decide)

/-- C2 counterexample: with an access token and expiry stored but no refresh
token, the refresh attempt fails (yields `none`) yet the access token is
still stored afterwards — credential material is not cleared on this
failure path, contradicting the claim. -/
theorem refresh_failure_no_token_not_cleared :
    (refreshAccessToken .exn 0 ⟨some "tok", some 100, none, none⟩).1 = none ∧
    (refreshAccessToken .exn 0 ⟨some "tok", some 100, none, none⟩).2.accessToken
      = some "tok" :=
  ⟨rfl, rfl⟩

/-- C2 amended: when a refresh token is stored and the refresh attempt fails
(non-ok HTTP status, or a thrown network/parse error), every stored
credential field is cleared; when no refresh token is stored, the attempt
returns `none` and leaves the store exactly as it was. -/
theorem refresh_failure_clearing (fetch : FetchOutcome) (now : Nat) (s : Store) :
    (s.refreshToken = none → refreshAccessToken fetch now s = (none, s)) ∧
    (∀ rt, s.refreshToken = some rt →
      (∀ st, fetch = .httpError st →
        refreshAccessToken fetch now s = (none, Store.empty)) ∧
      (fetch = .exn → refreshAccessToken fetch now s = (none, Store.empty))) := by
  refine ⟨fun h => ?_, fun rt hrt => ⟨fun st hf => ?_, fun hf => ?_⟩⟩
  · simp [refreshAccessToken, h]
  · subst hf
    simp [refreshAccessToken, hrt, refreshContinuation, clearToken, Store.empty]
  · subst hf
    simp [refreshAccessToken, hrt, refreshContinuation, clearToken, Store.empty]

/-- Witness for C2 amended: a concrete failing refresh clears everything. -/
theorem refresh_failure_clearing_witness :
    refreshAccessToken (.httpError 400) 7 ⟨some "tok", some 3, some "r", some "v"⟩
      = (none, Store.empty) :=
  ((refresh_failure_clearing (.httpError 400) 7
      ⟨some "tok", some 3, some "r", some "v"⟩).2 "r" rfl).1 400 rfl

/-- C4 counterexample: with no stored code verifier, the three-character code
abc is rejected with `invalidCode` (the length check runs first), not with
the no-pending-handshake error, contradicting regardless of code value. -/
theorem exchange_no_verifier_short_code :
    (exchangeCodeForToken .exn 0 "abc" Store.empty).1 = .error .invalidCode ∧
    ExchangeError.invalidCode ≠ ExchangeError.noVerifier :=
  ⟨rfl, by decide⟩

/-- C4 amended: for every code that passes the length validation (length at
least 10), calling the exchange with no stored code verifier fails with the
verifier-not-found error and leaves the store unchanged; shorter codes are
rejected with `invalidCode` before the verifier is consulted. -/
theorem exchange_no_verifier_fails (fetch : FetchOutcome) (now : Nat)
    (code : String) (s : Store) (hv : s.codeVerifier = none)
    (hlen : 10 ≤ code.length) :
    exchangeCodeForToken fetch now code s = (.error .noVerifier, s) := by
  simp [exchangeCodeForToken, hv, Nat.not_lt.mpr hlen]

/-- Witness for C4 amended at a concrete long code and empty store. -/
theorem exchange_no_verifier_fails_witness :
    exchangeCodeForToken .exn 0 "abcdefghij" Store.empty
      = (.error .noVerifier, Store.empty) :=
  exchange_no_verifier_fails .exn 0 "abcdefghij" Store.empty rfl (by decide)

/-- C5 counterexample: the code abc is non-empty and composed only of
characters from the expected alphabet, yet the exchange rejects it with
`invalidCode` even though a verifier is stored — acceptance is not the
alphabet condition the claim states. -/
theorem exchange_alphabet_not_acceptance :
    ("abc".toList.all isSpotifyCodeChar = true ∧ "abc" ≠ "") ∧
    (exchangeCodeForToken .exn 0 "abc" ⟨none, none, none, some "v"⟩).1
      = .error .invalidCode :=
  ⟨⟨by decide, by decide⟩, rfl⟩

/-- C5 amended: the code-exchange path rejects a code with `invalidCode`
exactly when its length is below 10; no alphabet-membership check is
performed on this path (the stricter `validateSpotifyAuthCode` exists in the
codebase but is not invoked here), and the code string itself is passed to
the exchange without truncation or modification. -/
theorem exchange_code_validation (fetch : FetchOutcome) (now : Nat)
    (code : String) (s : Store) :
    (exchangeCodeForToken fetch now code s).1 = .error .invalidCode ↔
      code.length < 10 := by
  by_cases h : code.length < 10
  · simp [exchangeCodeForToken, h]
  · simp only [exchangeCodeForToken, if_neg h]
    cases hv : s.codeVerifier with
    | none => simp [h]
    | some v => cases fetch <;> simp [h]

/-- Helper: writing an ok token response always sets the access token field,
whatever the prior store contents. -/
theorem writeTokenResponse_accessToken (resp : TokenResponse) (now : Nat)
    (s : Store) :
    (writeTokenResponse resp now s).accessToken = some resp.accessToken := by
  obtain ⟨a, ei, rt⟩ := resp
  cases rt
  · dsimp only [writeTokenResponse]
    split_ifs <;> rfl
  · dsimp only [writeTokenResponse]
    split_ifs <;> rfl

/-- C9 counterexample: with the session Authenticated and a refresh in
flight, logout completes (clearing the store) and then the ok refresh
response is processed: the continuation writes the new access token, so the
post-logout store again contains credential material. -/
theorem logout_during_refresh_resurrects :
    ((refreshContinuation (.ok ⟨"newtok", 3600, some "r2"⟩) 1000
        (clearToken ⟨some "old", some 500, some "r", none⟩)).2).accessToken
      = some "newtok" :=
  rfl

/-- C9 amended: the refresh network call is not aborted by logout; whenever
the ok response is processed after logout has cleared the store, the refresh
continuation unconditionally writes the new access token back, so the
post-logout state contains credential material in that interleaving. -/
theorem refresh_after_logout_writes_credential (resp : TokenResponse)
    (now : Nat) (s : Store) :
    (refreshContinuation (.ok resp) now (clearToken s)).1
        = some resp.accessToken ∧
    (refreshContinuation (.ok resp) now (clearToken s)).2.accessToken
        = some resp.accessToken :=
  ⟨rfl, writeTokenResponse_accessToken resp now (clearToken s)⟩

/-- C10: when an access token is stored but no expiry timestamp is, both
reads return the token unchanged — independent of the current time and of
any network outcome — the store is left untouched, and this state is
reachable: `storeToken` on the empty store writes only the token. -/
theorem token_without_expiry_returned (fetch : FetchOutcome) (now : Nat)
    (s : Store) (t : String)
    (htok : s.accessToken = some t) (hexp : s.tokenExpires = none) :
    getStoredToken fetch now s = (some t, s) ∧
    getStoredTokenSync now s = some t ∧
    (storeToken t Store.empty).accessToken = some t ∧
    (storeToken t Store.empty).tokenExpires = none := by
  obtain ⟨a, x, r, v⟩ := s
  cases htok
  cases hexp
  exact ⟨rfl, rfl, rfl, rfl⟩

/-- Witness for C10 at a concrete store holding only a token. -/
theorem token_without_expiry_returned_witness :
    getStoredToken .exn 99 ⟨some "tok", none, none, none⟩
      = (some "tok", ⟨some "tok", none, none, none⟩) ∧
    getStoredTokenSync 99 ⟨some "tok", none, none, none⟩ = some "tok" ∧
    (storeToken "tok" Store.empty).accessToken = some "tok" ∧
    (storeToken "tok" Store.empty).tokenExpires = none :=
  token_without_expiry_returned .exn 99 _ "tok" rfl rfl

/-- C3 counterexample: at status 429 with a retry-after hint available, the
classified error carries no hint — `makeSpotifyRequest` never reads response
headers, so the RateLimited error does not capture retry-after as the claim
states. -/
theorem rateLimited_hint_not_captured :
    classifyResponse 429 (some 5) = some ⟨.rateLimited, none⟩ ∧
    (some (UpstreamError.mk .rateLimited none)
      ≠ some (UpstreamError.mk .rateLimited (some 5))) :=
  ⟨rfl, by decide⟩

/-- C3 amended: the status classification is exact — 2xx is no error, 401
maps to Unauthorized, 403 to Forbidden, 429 to RateLimited (without
capturing any retry-after hint), and every other non-2xx status to
Transient. -/
theorem gateway_status_classification (status : Nat) (ra : Option Nat) :
    (200 ≤ status → status ≤ 299 → classifyResponse status ra = none) ∧
    (status = 401 → classifyResponse status ra = some ⟨.unauthorized, none⟩) ∧
    (status = 403 → classifyResponse status ra = some ⟨.forbidden, none⟩) ∧
    (status = 429 → classifyResponse status ra = some ⟨.rateLimited, none⟩) ∧
    (¬(200 ≤ status ∧ status ≤ 299) → status ≠ 401 → status ≠ 403 →
      status ≠ 429 → classifyResponse status ra = some ⟨.transient, none⟩) := by
  refine ⟨fun h1 h2 => ?_, fun h => ?_, fun h => ?_, fun h => ?_,
    fun h h1 h2 h3 => ?_⟩
  · simp [classifyResponse, spotifyRequestErrorMessage, responseOk, h1, h2]
  · subst h; rfl
  · subst h; rfl
  · subst h; rfl
  · have hok : responseOk status = false := by
      simp only [responseOk, Bool.and_eq_false_iff, decide_eq_false_iff_not]
      omega
    simp [classifyResponse, spotifyRequestErrorMessage, hok, h1, h2, h3]

/-- Witness for C3 amended at one status of each class. -/
theorem gateway_status_classification_witness :
    classifyResponse 204 none = none ∧
    classifyResponse 401 none = some ⟨.unauthorized, none⟩ ∧
    classifyResponse 403 none = some ⟨.forbidden, none⟩ ∧
    classifyResponse 429 (some 3) = some ⟨.rateLimited, none⟩ ∧
    classifyResponse 500 none = some ⟨.transient, none⟩ :=
  ⟨(gateway_status_classification 204 none).1 (by decide) (by decide),
    (gateway_status_classification 401 none).2.1 rfl,
    (gateway_status_classification 403 none).2.2.1 rfl,
    (gateway_status_classification 429 (some 3)).2.2.2.1 rfl,
    (gateway_status_classification 500 none).2.2.2.2 (by decide) (by decide)
      (by decide) (by decide)⟩

/-- Helper: one map update changes exactly the bumped genre's count, by one. -/
theorem lookupCount_bumpGenre (g g2 n : String)
    (m : List (String × Nat × List String)) :
    lookupCount g (bumpGenre g2 n m)
      = lookupCount g m + (if g2 = g then 1 else 0) := by
  induction m with
  | nil => by_cases h : g2 = g <;> simp [bumpGenre, lookupCount, h]
  | cons e rest ih =>
    obtain ⟨ge, c, as⟩ := e
    by_cases h1 : ge = g2
    · subst h1
      by_cases h2 : ge = g <;> simp [bumpGenre, lookupCount, h2]
    · by_cases h2 : ge = g
      · subst h2
        have hne : ¬g2 = ge := fun hh => h1 hh.symm
        simp [bumpGenre, lookupCount, h1, hne]
      · simp [bumpGenre, lookupCount, h1, h2, ih]

/-- Helper: folding one artist's genre list adds that list's occurrence count
of each genre. -/
theorem lookupCount_genresFold (g n : String) (gs : List String)
    (m : List (String × Nat × List String)) :
    lookupCount g (gs.foldl (fun m2 g2 => bumpGenre g2 n m2) m)
      = lookupCount g m + gs.count g := by
  induction gs generalizing m with
  | nil => simp
  | cons gh gt ih =>
    by_cases h : gh = g
    all_goals simp [List.foldl_cons, ih, lookupCount_bumpGenre, List.count_cons, h]
    all_goals omega

/-- Helper: the full genre fold computes the per-genre occurrence count. -/
theorem lookupCount_genreCounts_aux (g : String) (artists : List Artist)
    (m : List (String × Nat × List String)) :
    lookupCount g (artists.foldl
        (fun acc artist => artist.genres.foldl
          (fun m2 g2 => bumpGenre g2 artist.name m2) acc) m)
      = lookupCount g m + genreOccurrences g artists := by
  induction artists generalizing m with
  | nil => simp [genreOccurrences]
  | cons a rest ih =>
    simp only [List.foldl_cons, ih, lookupCount_genresFold, genreOccurrences,
      List.map_cons, List.sum_cons]
    omega

/-- Helper: the genre map's count for a genre equals its occurrence count. -/
theorem lookupCount_genreCounts (g : String) (artists : List Artist) :
    lookupCount g (genreCounts artists) = genreOccurrences g artists := by
  simpa [lookupCount] using lookupCount_genreCounts_aux g artists []

/-- Helper: one map update grows the total occurrence count by one. -/
theorem totalOccurrencesOf_bumpGenre (g n : String)
    (m : List (String × Nat × List String)) :
    totalOccurrencesOf (bumpGenre g n m) = totalOccurrencesOf m + 1 := by
  induction m with
  | nil => simp [bumpGenre, totalOccurrencesOf]
  | cons e rest ih =>
    obtain ⟨ge, c, as⟩ := e
    by_cases h : ge = g <;> simp [bumpGenre, totalOccurrencesOf, h] <;>
      simp [totalOccurrencesOf] at ih <;> omega

/-- Helper: folding one genre list grows the total by its length. -/
theorem totalOccurrencesOf_genresFold (n : String) (gs : List String)
    (m : List (String × Nat × List String)) :
    totalOccurrencesOf (gs.foldl (fun m2 g2 => bumpGenre g2 n m2) m)
      = totalOccurrencesOf m + gs.length := by
  induction gs generalizing m with
  | nil => simp
  | cons gh gt ih => simp [List.foldl_cons, ih, totalOccurrencesOf_bumpGenre]; omega

/-- Helper: the total occurrence count of the built map is the sum of the
genre-list lengths. -/
theorem totalOccurrencesOf_genreCounts (artists : List Artist) :
    totalOccurrencesOf (genreCounts artists) = totalGenreSlots artists := by
  suffices h : ∀ m, totalOccurrencesOf (artists.foldl
      (fun acc artist => artist.genres.foldl
        (fun m2 g2 => bumpGenre g2 artist.name m2) acc) m)
      = totalOccurrencesOf m + totalGenreSlots artists by
    simpa [totalOccurrencesOf] using h []
  induction artists with
  | nil => simp [totalGenreSlots]
  | cons a rest ih =>
    intro m
    simp only [List.foldl_cons, ih, totalOccurrencesOf_genresFold,
      totalGenreSlots, List.map_cons, List.sum_cons]
    omega

/-- Helper: a map update leaves the key list unchanged when the genre is
already a key and appends it otherwise. -/
theorem mapKeys_bumpGenre (g n : String)
    (m : List (String × Nat × List String)) :
    mapKeys (bumpGenre g n m)
      = if g ∈ mapKeys m then mapKeys m else mapKeys m ++ [g] := by
  induction m with
  | nil => simp [bumpGenre, mapKeys]
  | cons e rest ih =>
    obtain ⟨ge, c, as⟩ := e
    by_cases h : ge = g
    · subst h
      simp [bumpGenre, mapKeys]
    · have hne : g ≠ ge := fun hh => h hh.symm
      by_cases hmem : g ∈ mapKeys rest
      · simp only [bumpGenre, if_neg h, mapKeys, List.map_cons] at ih hmem ⊢
        rw [ih]
        simp [hmem, hne]
      · simp only [bumpGenre, if_neg h, mapKeys, List.map_cons] at ih hmem ⊢
        rw [ih]
        simp [hmem, hne]

/-- Helper: map updates preserve distinctness of the keys. -/
theorem mapKeys_bumpGenre_nodup (g n : String)
    (m : List (String × Nat × List String)) (h : (mapKeys m).Nodup) :
    (mapKeys (bumpGenre g n m)).Nodup := by
  rw [mapKeys_bumpGenre]
  by_cases hmem : g ∈ mapKeys m
  · simpa [hmem] using h
  · rw [if_neg hmem, List.nodup_append]
    refine ⟨h, List.nodup_singleton g, fun a ha hag => ?_⟩
    rw [List.mem_singleton] at hag
    exact hmem (hag ▸ ha)

/-- Helper: the built genre map has distinct keys. -/
theorem genreCounts_keys_nodup (artists : List Artist) :
    (mapKeys (genreCounts artists)).Nodup := by
  suffices h : ∀ m, (mapKeys m).Nodup →
      (mapKeys (artists.foldl
        (fun acc artist => artist.genres.foldl
          (fun m2 g2 => bumpGenre g2 artist.name m2) acc) m)).Nodup by
    exact h [] (by simp [mapKeys])
  induction artists with
  | nil => intro m hm; simpa using hm
  | cons a rest ih =>
    intro m hm
    simp only [List.foldl_cons]
    apply ih
    clear ih
    induction a.genres generalizing m with
    | nil => simpa using hm
    | cons gh gt ihg =>
      simp only [List.foldl_cons]
      exact ihg _ (mapKeys_bumpGenre_nodup gh a.name m hm)

/-- Helper: with distinct keys, membership determines the looked-up count. -/
theorem lookupCount_of_mem (g : String) (c : Nat) (as : List String)
    (m : List (String × Nat × List String)) (hnd : (mapKeys m).Nodup)
    (hmem : (g, c, as) ∈ m) : lookupCount g m = c := by
  induction m with
  | nil => cases hmem
  | cons e rest ih =>
    obtain ⟨ge, c2, as2⟩ := e
    rcases List.mem_cons.mp hmem with heq | hrest
    · obtain ⟨h1, h2, h3⟩ := Prod.mk.injEq .. ▸ heq
      injection heq with hg hca
      injection hca with hc ha
      subst hg
      simp [lookupCount, hc]
    · have hgne : ge ≠ g := by
        intro hh
        subst hh
        have : ge ∈ mapKeys rest :=
          List.mem_map.mpr ⟨(ge, c, as), hrest, rfl⟩
        simp [mapKeys] at hnd
        exact hnd.1 c as hrest
      have hnd2 : (mapKeys rest).Nodup := by
        simp [mapKeys] at hnd ⊢
        exact hnd.2
      simp [lookupCount, hgne, ih hnd2 hrest]

/-- Helper: inserting a row whose count is `c` puts it in front of every
later row of count `c`: the filter at count `c` gains the row at the head. -/
theorem filter_orderedInsert_count_eq (x : GenreData) (c : Nat)
    (hx : x.count = c) (l : List GenreData) :
    (List.orderedInsert genreOrder x l).filter (fun d => d.count == c)
      = x :: l.filter (fun d => d.count == c) := by
  induction l with
  | nil => simp [hx]
  | cons b t ih =>
    by_cases h : genreOrder x b
    · rw [List.orderedInsert, if_pos h]
      simp [List.filter_cons, hx]
    · have hb : ¬b.count = c := by
        intro hbc
        exact h (by simp [genreOrder, hbc, hx])
      rw [List.orderedInsert, if_neg h]
      simp [List.filter_cons, hb, ih]

/-- Helper: inserting a row of a different count leaves the filter at count
`c` unchanged. -/
theorem filter_orderedInsert_count_ne (x : GenreData) (c : Nat)
    (hx : ¬x.count = c) (l : List GenreData) :
    (List.orderedInsert genreOrder x l).filter (fun d => d.count == c)
      = l.filter (fun d => d.count == c) := by
  induction l with
  | nil => simp [hx]
  | cons b t ih =>
    by_cases h : genreOrder x b
    · rw [List.orderedInsert, if_pos h]
      simp [List.filter_cons, hx]
    · rw [List.orderedInsert, if_neg h]
      by_cases hb : b.count = c <;> simp [List.filter_cons, hb, ih]

/-- Helper (stability): the sort preserves the relative order of rows with
equal counts — filtering the sorted list at any count gives exactly the
filter of the unsorted list, in its original order. -/
theorem filter_insertionSort_count (l : List GenreData) (c : Nat) :
    (List.insertionSort genreOrder l).filter (fun d => d.count == c)
      = l.filter (fun d => d.count == c) := by
  induction l with
  | nil => rfl
  | cons x t ih =>
    rw [List.insertionSort]
    by_cases hx : x.count = c
    · rw [filter_orderedInsert_count_eq x c hx _, ih, List.filter_cons]
      simp [hx]
    · rw [filter_orderedInsert_count_ne x c hx _, ih, List.filter_cons]
      simp [hx]

/-- C6: the genre distribution counts one occurrence per (artist, genre)
pair, computes each percentage as count over total genre occurrences times
100 (not over artist count), and orders by descending count; ties keep
first-encountered order (filtering the output at any count equals filtering
the insertion-ordered pre-sort list, which lists genres in first-encounter
order); the spec's two-artist example evaluates as claimed, with 200/3 and
100/3 the exact values displayed as 66.7 and 33.3. -/
theorem genre_distribution_spec :
    (∀ artists : List Artist, ∀ d ∈ getTopGenres artists,
        d.count = genreOccurrences d.name artists ∧
        d.percentage = (d.count : ℚ) / (totalGenreSlots artists : ℚ) * 100) ∧
    (∀ artists : List Artist, List.Sorted genreOrder (getTopGenres artists)) ∧
    (∀ artists : List Artist, ∀ c : Nat,
        (getTopGenres artists).filter (fun d => d.count == c)
          = (genreDataOf artists).filter (fun d => d.count == c)) ∧
    getTopGenres [⟨"A1", ["a", "b"]⟩, ⟨"A2", ["a"]⟩]
      = [⟨"a", 2, 200 / 3, ["A1", "A2"]⟩, ⟨"b", 1, 100 / 3, ["A1"]⟩] := by
  refine ⟨?_, ?_, ?_, ?_⟩
  · intro artists d hd
    have hd2 : d ∈ genreDataOf artists :=
      (List.perm_insertionSort genreOrder (genreDataOf artists)).mem_iff.mp hd
    simp only [genreDataOf] at hd2
    obtain ⟨⟨g, c, as⟩, he, hde⟩ := List.mem_map.mp hd2
    cases hde
    have hc : lookupCount g (genreCounts artists) = c :=
      lookupCount_of_mem g c as _ (genreCounts_keys_nodup artists) he
    refine ⟨?_, ?_⟩
    · show c = genreOccurrences g artists
      exact hc.symm.trans (lookupCount_genreCounts g artists)
    · show (c : ℚ) / (totalOccurrencesOf (genreCounts artists) : ℚ) * 100
        = (c : ℚ) / (totalGenreSlots artists : ℚ) * 100
      rw [totalOccurrencesOf_genreCounts]
  · intro artists
    exact List.sorted_insertionSort genreOrder (genreDataOf artists)
  · intro artists c
    exact filter_insertionSort_count (genreDataOf artists) c
  · norm_num [getTopGenres, genreDataOf, genreCounts, bumpGenre,
      totalOccurrencesOf, List.insertionSort, List.orderedInsert, genreOrder]

/-- C7: the album grouping's output is ordered by member track count
descending with count ties broken by average popularity descending; the
truncation to the caller's limit happens only after sorting — the output has
length min(limit, number of groups), and every emitted group ranks at least
as high (under the comparator order) as every group the truncation dropped;
the spec's example with albums X and Y tied at three tracks ranks Y (average
popularity 90) before X (average popularity 70). -/
theorem album_grouping_spec :
    (∀ (tracks : List Track) (limit : Nat),
        List.Sorted albumOrder (getTopAlbumsFromTracks tracks limit)) ∧
    (∀ (tracks : List Track) (limit : Nat),
        (getTopAlbumsFromTracks tracks limit).length
          = min limit (rankedAlbums tracks).length) ∧
    (∀ (tracks : List Track) (limit : Nat),
        ∀ a ∈ getTopAlbumsFromTracks tracks limit,
        ∀ b ∈ (List.insertionSort albumOrder (rankedAlbums tracks)).drop limit,
        albumOrder a b) ∧
    getTopAlbumsFromTracks
        [⟨"x1", 70, ⟨"X", "Album X"⟩⟩, ⟨"x2", 70, ⟨"X", "Album X"⟩⟩,
          ⟨"x3", 70, ⟨"X", "Album X"⟩⟩, ⟨"y1", 90, ⟨"Y", "Album Y"⟩⟩,
          ⟨"y2", 90, ⟨"Y", "Album Y"⟩⟩, ⟨"y3", 90, ⟨"Y", "Album Y"⟩⟩] 10
      = [⟨"Y", 3, ["y1", "y2", "y3"], 90⟩, ⟨"X", 3, ["x1", "x2", "x3"], 70⟩] := by
  refine ⟨?_, ?_, ?_, ?_⟩
  · intro tracks limit
    exact List.Pairwise.sublist (List.take_sublist limit _)
      (List.sorted_insertionSort albumOrder (rankedAlbums tracks))
  · intro tracks limit
    simp [getTopAlbumsFromTracks, List.length_take,
      (List.perm_insertionSort albumOrder (rankedAlbums tracks)).length_eq]
  · intro tracks limit a ha b hb
    have hs := List.sorted_insertionSort albumOrder (rankedAlbums tracks)
    rw [List.Sorted, ← List.take_append_drop limit
      (List.insertionSort albumOrder (rankedAlbums tracks)),
      List.pairwise_append] at hs
    exact hs.2.2 a ha b hb
  · norm_num [getTopAlbumsFromTracks, rankedAlbums, albumGroups, bumpAlbum,
      List.insertionSort, List.orderedInsert, albumOrder]

/-- Helper: indexing the verifier alphabet (with its own first character as
the out-of-range default) always yields one of its characters. -/
theorem possibleChars_getD_mem (n : Nat) :
    possibleChars.getD n 'A' ∈ possibleChars := by
  rcases Nat.lt_or_ge n possibleChars.length with h | h
  · rw [List.getD_eq_getElem _ _ h]
    exact List.getElem_mem h
  · rw [List.getD_eq_default _ _ h]
    decide

/-- Helper: every verifier-alphabet character is unreserved. -/
theorem possibleChars_unreserved :
    possibleChars.all isUnreservedChar = true := by decide

/-- Helper: a base64 digit is always in the base64 alphabet. -/
theorem b64char_mem (n : Nat) : b64char n ∈ base64Chars := by
  unfold b64char
  rcases Nat.lt_or_ge n base64Chars.length with h | h
  · rw [List.getD_eq_getElem _ _ h]
    exact List.getElem_mem h
  · rw [List.getD_eq_default _ _ h]
    decide

/-- Helper: the URL-safe substitution maps every base64 digit into the
URL-safe alphabet. -/
theorem base64Chars_url_all :
    base64Chars.all (fun c => isBase64UrlChar
      (if c = '+' then '-' else if c = '/' then '_' else c)) = true := by decide

/-- Helper: `btoa` output consists of base64 digits and padding. -/
theorem mem_base64Of :
    ∀ (bytes : List Nat) (c : Char), c ∈ base64Of bytes →
      c ∈ base64Chars ∨ c = '='
  | [], c, h => absurd h (List.not_mem_nil c)
  | [b1], c, h => by
    simp only [base64Of, List.mem_cons, List.not_mem_nil, or_false] at h
    rcases h with h | h | h | h
    · exact Or.inl (h ▸ b64char_mem _)
    · exact Or.inl (h ▸ b64char_mem _)
    · exact Or.inr h
    · exact Or.inr h
  | [b1, b2], c, h => by
    simp only [base64Of, List.mem_cons, List.not_mem_nil, or_false] at h
    rcases h with h | h | h | h
    · exact Or.inl (h ▸ b64char_mem _)
    · exact Or.inl (h ▸ b64char_mem _)
    · exact Or.inl (h ▸ b64char_mem _)
    · exact Or.inr h
  | b1 :: b2 :: b3 :: rest, c, h => by
    simp only [base64Of, List.mem_cons] at h
    rcases h with h | h | h | h | h
    · exact Or.inl (h ▸ b64char_mem _)
    · exact Or.inl (h ▸ b64char_mem _)
    · exact Or.inl (h ▸ b64char_mem _)
    · exact Or.inl (h ▸ b64char_mem _)
    · exact mem_base64Of rest c h

/-- Helper: the verifier has one character per random byte. -/
theorem generateRandomString_length (values : List Nat) :
    (generateRandomString values).length = values.length := by
  simp [generateRandomString, String.length]

/-- Helper: every verifier character is from the unreserved alphabet. -/
theorem generateRandomString_chars (values : List Nat) :
    (generateRandomString values).toList.all isUnreservedChar = true := by
  rw [List.all_eq_true]
  intro c hc
  simp only [generateRandomString, String.toList] at hc
  obtain ⟨x, _, hcx⟩ := List.mem_map.mp hc
  exact List.all_eq_true.mp possibleChars_unreserved c
    (hcx ▸ possibleChars_getD_mem (x % possibleChars.length))

/-- Helper: every character of `base64encode` output is URL-safe base64. -/
theorem base64encode_chars (bytes : List Nat) :
    (base64encode bytes).toList.all isBase64UrlChar = true := by
  rw [List.all_eq_true]
  intro c hc
  simp only [base64encode, String.toList] at hc
  obtain ⟨c2, hc2, hcc⟩ := List.mem_map.mp hc
  obtain ⟨hmem, _⟩ := List.mem_filter.mp hc2
  have h2 : c2 ∈ base64Chars := by
    rcases mem_base64Of bytes c2 hmem with h | h
    · exact h
    · subst h
      obtain ⟨_, hne⟩ := List.mem_filter.mp hc2
      simp at hne
  exact hcc ▸ List.all_eq_true.mp base64Chars_url_all c2 h2

/-- Helper: `base64encode` output contains no padding character. -/
theorem base64encode_no_pad (bytes : List Nat) :
    '=' ∉ (base64encode bytes).toList := by
  intro h
  have := List.all_eq_true.mp (base64encode_chars bytes) '=' h
  simp [isBase64UrlChar] at this

/-- C8: for a 64-byte random draw (as `initiateAuth` performs), the verifier
has length 64 ≥ 43 and consists only of unreserved URL-safe characters, and
the challenge is `base64encode` — URL-safe alphabet, no padding — of the
digest of the verifier, for every digest function standing in for the
platform's SHA-256. -/
theorem challenge_generator_spec (hash : String → List Nat)
    (values : List Nat) (hlen : values.length = 64) :
    43 ≤ (initiateAuthChallenge hash values).1.length ∧
    (initiateAuthChallenge hash values).1.toList.all isUnreservedChar = true ∧
    (initiateAuthChallenge hash values).2
      = base64encode (hash (initiateAuthChallenge hash values).1) ∧
    (initiateAuthChallenge hash values).2.toList.all isBase64UrlChar = true ∧
    '=' ∉ (initiateAuthChallenge hash values).2.toList := by
  refine ⟨?_, generateRandomString_chars values, rfl, base64encode_chars _,
    base64encode_no_pad _⟩
  show 43 ≤ (generateRandomString values).length
  rw [generateRandomString_length, hlen]
  omega

/-- Witness for C8 at a concrete all-zero draw and a constant digest. -/
theorem challenge_generator_spec_witness :
    43 ≤ (initiateAuthChallenge (fun _ => List.replicate 32 0)
        (List.replicate 64 0)).1.length ∧
    (initiateAuthChallenge (fun _ => List.replicate 32 0)
        (List.replicate 64 0)).1.toList.all isUnreservedChar = true ∧
    (initiateAuthChallenge (fun _ => List.replicate 32 0)
        (List.replicate 64 0)).2
      = base64encode ((fun _ => List.replicate 32 0)
          (initiateAuthChallenge (fun _ => List.replicate 32 0)
            (List.replicate 64 0)).1) ∧
    (initiateAuthChallenge (fun _ => List.replicate 32 0)
        (List.replicate 64 0)).2.toList.all isBase64UrlChar = true ∧
    '=' ∉ (initiateAuthChallenge (fun _ => List.replicate 32 0)
        (List.replicate 64 0)).2.toList :=
  challenge_generator_spec (fun _ => List.replicate 32 0)
    (List.replicate 64 0) (by simp)

end Resonance
